import Mathlib

/-!
# DesktopSaver: icon arrangements, their diff labels and their text records

A shallow embedding of `src/icon_history.cpp` (class `IconHistory`): the icon
set of one desktop snapshot, the equality test `Identical`, the diff label of
`CalculateName`, and the line-oriented record of `Serialize` / `Deserialize`;
and of the tray menu of `src/saver_gui.cpp`: the menu ids, `build_dynamic_menu`
and the dispatch of a choice by `message_menu`.

Conventions of the embedding
* `std::wstring` is the list of its characters; `L "..."` is a wide literal.
* `long` and `int` are 32 bits wide (the program is a Win32 program); values
  are `Int`, and stream extraction saturates at the limits as `operator>>`
  does.
* Member functions that modify `*this` return the new object.
* The three counters of `CalculateName` are `int` in the source; each is
  incremented at most once per icon of a set held in memory, so they never
  wrap and are natural numbers here.
-/

namespace DesktopSaver

/-! ## Strings and streams -/

/-- A wide string (std::wstring): the sequence of its characters. -/
abbrev wstring := List Char

/-- A wide string literal, written L"..." in the source. -/
def L (s : String) : wstring := s.data

/-- Largest value of a 32-bit `long` / `int`. -/
def LONG_MAX : Int := 2147483647

/-- Smallest value of a 32-bit `long` / `int`. -/
def LONG_MIN : Int := -2147483648

/-- The character of a decimal digit `d < 10`. -/
def digitChar (d : Nat) : Char := Char.ofNat (48 + d)

/-- The value of a decimal digit character. -/
def digitVal (c : Char) : Nat := c.toNat - 48

/-- Digits of `n`, most significant first, pushed in front of `acc`;
`fuel` bounds the number of digits produced. -/
def decimalAux : Nat → Nat → List Char → List Char
  | 0, _, acc => acc
  | fuel + 1, n, acc =>
    if n < 10 then digitChar n :: acc
    else decimalAux fuel (n / 10) (digitChar (n % 10) :: acc)

/-- Stream insertion of a non-negative integer (`os << n`): its decimal digits. -/
def decimal (n : Nat) : wstring := decimalAux (n + 1) n []

/-- White space skipped by formatted extraction (the classic locale). -/
def isSpace (c : Char) : Bool :=
  c = ' ' || c = '\t' || c = '\n' || c = '\x0b' || c = '\x0c' || c = '\r'

/-- Value of a run of decimal digits. -/
def digitsToNat (ds : List Char) : Nat :=
  ds.foldl (fun a c => 10 * a + digitVal c) 0

/-- Outcome of one formatted extraction from a fresh string stream: the value
stored and the state bits read afterwards. -/
structure Extracted where
  value : Int
  fail : Bool
  bad : Bool
  deriving DecidableEq, Repr

/-- Formatted extraction `stream >> v` of a `long` (or `int`) from a fresh
`wistringstream` over `s`: leading white space is skipped, an optional sign
and the decimal digits after it are consumed. Without a digit the value stored
is 0 and `failbit` is set; a value out of range is stored as the nearest limit
and `failbit` is set. Reading from a string buffer never sets `badbit`. -/
def extractLong (s : wstring) : Extracted :=
  let s1 := s.dropWhile isSpace
  let signed : Bool × List Char :=
    match s1 with
    | [] => (false, [])
    | c :: r => if c = '-' then (true, r) else if c = '+' then (false, r) else (false, c :: r)
  let ds := signed.2.takeWhile Char.isDigit
  if ds = [] then ⟨0, true, false⟩
  else
    let v : Int := if signed.1 then -(digitsToNat ds : Int) else (digitsToNat ds : Int)
    if LONG_MAX < v then ⟨LONG_MAX, true, false⟩
    else if v < LONG_MIN then ⟨LONG_MIN, true, false⟩
    else ⟨v, false, false⟩

/-! ## The line reader -/

/-- Modelled from the spec: the class FileReader (file_reader.h) is not among
the sources. A reader is the sequence of lines its successive `ReadLine` calls
still have to deliver. -/
structure FileReader where
  pending : List wstring
  deriving DecidableEq, Repr

/-- Modelled from the spec: FileReader::ReadLine is not among the sources.
It delivers the next line; at the end of the stream it delivers the empty
line ("an empty first line ... end of stream"). -/
def FileReader.ReadLine (fr : FileReader) : wstring × FileReader :=
  match fr.pending with
  | [] => ([], fr)
  | l :: ls => (l, ⟨ls⟩)

/-- Pieces of a text between its line feeds. -/
def splitLF : List Char → List wstring
  | [] => [[]]
  | c :: cs =>
    if c = '\n' then [] :: splitLF cs
    else
      match splitLF cs with
      | [] => [[c]]
      | l :: ls => (c :: l) :: ls

/-- A line without the carriage return that ends it. -/
def stripCR (l : wstring) : wstring :=
  if l.getLast? = some '\r' then l.dropLast else l

/-- Whether the reader hands a line to its caller: blank lines and the
annotation lines starting with a colon are passed over. -/
def isPayload (l : wstring) : Bool :=
  match l with
  | [] => false
  | c :: _ => c != ':'

/-- Modelled from the spec: opening a FileReader on a text (file_reader.h is
not among the sources). The record layout of the spec has lines terminated by
carriage return and line feed, blank separator lines and annotation lines that
start with a colon, and `Deserialize` takes the first line it reads for the
display name: the reader delivers, in order, the lines that are neither blank
nor annotations. -/
def FileReader.ofText (text : wstring) : FileReader :=
  ⟨((splitLF text).map stripCR).filter isPayload⟩

/-! ## Icons and arrangements -/

/-- One desktop icon (struct Icon): its name and its position. -/
structure Icon where
  name : wstring
  x : Int
  y : Int
  deriving DecidableEq, Repr

/-- Modelled from the spec: the type IconList (icon_history.h) is not among
the sources. The spec describes the icon set as keyed by name and "ordered by
name for deterministic serialization", where "insertion of a duplicate name is
a silent no-op ... the first insertion wins". An IconList is the list of its
icons in iteration order, and `IconList.insert` is insertion into a set
ordered by name: an icon whose name is neither below nor above the name of a
stored icon is not inserted. -/
def IconList.insert (icon : Icon) : List Icon → List Icon
  | [] => [icon]
  | j :: js =>
    if icon.name < j.name then icon :: j :: js
    else if j.name < icon.name then j :: IconList.insert icon js
    else j :: js

/-- The class invariant of an IconList: strictly increasing names. -/
def IconList.Ordered (l : List Icon) : Prop :=
  l.Pairwise (fun a b => a.name < b.name)

/-- The icon names of an arrangement are unique. -/
def UniqueNames (l : List Icon) : Prop :=
  (l.map Icon.name).Nodup

/-- One snapshot of the desktop (class IconHistory). -/
structure IconHistory where
  m_icons : List Icon
  m_name : wstring
  m_named_profile : Bool
  deriving DecidableEq, Repr

namespace IconHistory

/-- The reserved first line of a named profile. -/
def named_identifier : wstring := L "named_profile"

/-- The constructor `IconHistory(bool named_profile)`. -/
def new (named_profile : Bool) : IconHistory :=
  ⟨[], L "Initial History", named_profile⟩

/-- AddIcon: insertion into the icon set; the result of the insertion is
ignored. -/
def AddIcon (self : IconHistory) (icon : Icon) : IconHistory :=
  { self with m_icons := IconList.insert icon self.m_icons }

/-! ### Deserialize -/

/-- What a call of `Deserialize` leaves behind: the value returned, the object,
the reader, and the messages passed to STANDARD_ERROR. -/
structure Outcome where
  ret : Bool
  self : IconHistory
  fr : FileReader
  errors : List wstring
  deriving DecidableEq, Repr

/-- The message of the one STANDARD_ERROR call in `Deserialize`. -/
def readProblem : wstring :=
  L "There was a problem reading from the history file.  This should fix itself automatically, but some profiles may have been lost."

/-- The loop `for (int i = 0; i < icon_count; ++i)` of `Deserialize`, with the
number of iterations still to run. -/
def DeserializeIcons : Nat → IconHistory → FileReader → Outcome
  | 0, self, fr => ⟨true, self, fr, []⟩
  | n + 1, self, fr =>
    let r1 := fr.ReadLine
    let r2 := r1.2.ReadLine
    let r3 := r2.2.ReadLine
    let x_stream := extractLong r2.1
    let y_stream := extractLong r3.1
    let icon : Icon := ⟨r1.1, x_stream.value, y_stream.value⟩
    if !x_stream.bad && !y_stream.bad && icon.name.length > 0 then
      DeserializeIcons n (self.AddIcon icon) r3.2
    else
      ⟨false, self, r3.2, [readProblem]⟩

/-- Deserialize: reads one record from the reader into the object. -/
def Deserialize (self : IconHistory) (fr : FileReader) : Outcome :=
  let self := { self with m_icons := [], m_named_profile := false }
  let r1 := fr.ReadLine
  if r1.1.length ≤ 0 then ⟨false, self, r1.2, []⟩
  else if r1.1 = named_identifier then
    let self := { self with m_named_profile := true }
    let r2 := r1.2.ReadLine
    if r2.1.length ≤ 0 then ⟨false, self, r2.2, []⟩
    else
      let self := { self with m_name := r2.1 }
      let r3 := r2.2.ReadLine
      let icon_count := (extractLong r3.1).value
      DeserializeIcons icon_count.toNat self r3.2
  else
    let self := { self with m_name := r1.1 }
    let r3 := r1.2.ReadLine
    let icon_count := (extractLong r3.1).value
    DeserializeIcons icon_count.toNat self r3.2

/-! ### Identical -/

/-- The inner loop of `Identical`: is there an icon of the list with the name
and the position of `i`? -/
def hasCounterpart (i : Icon) : List Icon → Bool
  | [] => false
  | j :: js =>
    if i.name ≠ j.name ∨ i.x ≠ j.x ∨ i.y ≠ j.y then hasCounterpart i js
    else true

/-- One outer loop of `Identical`: false as soon as an icon has no
counterpart. -/
def allHaveCounterpart : List Icon → List Icon → Bool
  | [], _ => true
  | i :: is, other => if !hasCounterpart i other then false else allHaveCounterpart is other

/-- Identical: the icon sets match in both directions. -/
def Identical (self other : IconHistory) : Bool :=
  if !allHaveCounterpart self.m_icons other.m_icons then false
  else if !allHaveCounterpart other.m_icons self.m_icons then false
  else true

/-! ### CalculateName -/

/-- The inner loop of the first pass of `CalculateName`: the search stops at
the first icon with the name of `i`; the result is `found` and whether that
icon is at another position. -/
def scanForName (i : Icon) : List Icon → Bool × Bool
  | [] => (false, false)
  | j :: js =>
    if i.name ≠ j.name then scanForName i js
    else (true, decide (i.x ≠ j.x ∨ i.y ≠ j.y))

/-- The local variables of `CalculateName` after its two passes. -/
structure Tally where
  iconsAdd : Nat
  iconsDel : Nat
  iconsMov : Nat
  addName : wstring
  delName : wstring
  movName : wstring
  deriving DecidableEq, Repr

/-- One iteration of the first pass (moved and added icons). -/
def passOneStep (previous : List Icon) (t : Tally) (i : Icon) : Tally :=
  let r := scanForName i previous
  let t := if r.1 && r.2 then { t with iconsMov := t.iconsMov + 1, movName := i.name } else t
  if r.1 then t else { t with iconsAdd := t.iconsAdd + 1, addName := i.name }

/-- One iteration of the second pass (deleted icons). -/
def passTwoStep (current : List Icon) (t : Tally) (i : Icon) : Tally :=
  if (scanForName i current).1 then t
  else { t with iconsDel := t.iconsDel + 1, delName := i.name }

/-- The two passes of `CalculateName` over the icon sets. -/
def tally (self previous_history : IconHistory) : Tally :=
  let t : Tally := ⟨0, 0, 0, [], [], []⟩
  let t := self.m_icons.foldl (passOneStep previous_history.m_icons) t
  previous_history.m_icons.foldl (passTwoStep self.m_icons) t

/-- The constant `MaxNameLength`. -/
def MaxNameLength : Nat := 30

/-- The constant `ellipsis`. -/
def ellipsis : wstring := L "..."

/-- Trimming of one exemplar name for display. -/
def trim (name : wstring) : wstring :=
  if name.length > MaxNameLength then name.take MaxNameLength ++ ellipsis else name

/-- The label `CalculateName` composes from the tallies, by the sequence of
assignments of the source; `m_name` is the name before the call. -/
def composeName (m_name : wstring) (t : Tally) : wstring :=
  let addName := trim t.addName
  let delName := trim t.delName
  let movName := trim t.movName
  let extra : wstring := L ""
  let extra_with_parens : wstring := L ""
  let extra := if t.iconsAdd > 0 then decimal t.iconsAdd ++ L " Added" else extra
  let extra := if t.iconsDel > 0 then decimal t.iconsDel ++ L " Deleted" else extra
  let extra :=
    if t.iconsAdd > 0 ∧ t.iconsDel > 0 then
      decimal t.iconsAdd ++ L " Added, " ++ decimal t.iconsDel ++ L " Deleted"
    else extra
  let extra_with_parens :=
    if extra.length > 0 then L " (" ++ extra ++ L ")" else extra_with_parens
  let m_name := if t.iconsMov > 0 then decimal t.iconsMov ++ L " Moved" ++ extra_with_parens else m_name
  let m_name := if t.iconsMov = 1 then L "'" ++ movName ++ L "' Moved" ++ extra_with_parens else m_name
  let m_name := if t.iconsMov = 0 then extra else m_name
  let m_name :=
    if t.iconsMov = 0 ∧ t.iconsAdd = 1 ∧ t.iconsDel = 0 then L "'" ++ addName ++ L "' Added" else m_name
  let m_name :=
    if t.iconsMov = 0 ∧ t.iconsAdd = 0 ∧ t.iconsDel = 1 then L "'" ++ delName ++ L "' Deleted" else m_name
  m_name

/-- CalculateName: names the object after its difference from the previous
arrangement. -/
def CalculateName (self previous_history : IconHistory) : IconHistory :=
  { self with m_name := composeName self.m_name (tally self previous_history) }

/-! ### Serialize -/

end IconHistory

/-! ## Notions used to state the properties -/

/-- The icons of `current` that the diff calls added: no icon of `previous`
has their name. -/
def addedIcons (current previous : List Icon) : List Icon :=
  current.filter (fun i => !previous.any (fun j => decide (j.name = i.name)))

/-- The icons of `current` that the diff calls moved: `previous` has an icon of
their name at another position. -/
def movedIcons (current previous : List Icon) : List Icon :=
  current.filter (fun i =>
    previous.any (fun j => decide (j.name = i.name ∧ (j.x ≠ i.x ∨ j.y ≠ i.y))))

/-- The icons of `previous` that the diff calls deleted: no icon of `current`
has their name. -/
def deletedIcons (current previous : List Icon) : List Icon :=
  previous.filter (fun i => !current.any (fun j => decide (j.name = i.name)))

/-- The name of the last icon of a list (the last one seen by a scan), empty
for the empty list. -/
def lastName (l : List Icon) : wstring :=
  match l.getLast? with
  | some i => i.name
  | none => []

/-- The base label of the diff, in the words of the specification. -/
def specBase (a d : Nat) : wstring :=
  if a > 0 ∧ d > 0 then decimal a ++ L " Added, " ++ decimal d ++ L " Deleted"
  else if a > 0 then decimal a ++ L " Added"
  else if d > 0 then decimal d ++ L " Deleted"
  else []

/-- The base label in parentheses after a blank, empty for an empty base. -/
def specExtra (a d : Nat) : wstring :=
  if specBase a d ≠ [] then L " (" ++ specBase a d ++ L ")" else []

/-- The label of the diff as the specification determines it from the three
counts and the three exemplar names. -/
def specLabel (a d m : Nat) (addedName deletedName movedName : wstring) : wstring :=
  if m > 1 then decimal m ++ L " Moved" ++ specExtra a d
  else if m = 1 then L "'" ++ movedName ++ L "' Moved" ++ specExtra a d
  else if a = 1 ∧ d = 0 then L "'" ++ addedName ++ L "' Added"
  else if a = 0 ∧ d = 1 then L "'" ++ deletedName ++ L "' Deleted"
  else specBase a d

/-- The icon `Deserialize` parses from a name line and two coordinate lines. -/
def parsedIcon (r : wstring × wstring × wstring) : Icon :=
  ⟨r.1, (extractLong r.2.1).value, (extractLong r.2.2).value⟩

/-- The icon set after inserting the icons of a list one at a time. -/
def insertAll (icons : List Icon) (into : List Icon) : List Icon :=
  icons.foldl (fun l i => IconList.insert i l) into

/-- The arrangement without icons. -/
def noIcons : IconHistory := IconHistory.new false

/-- The arrangement `{("doc.txt",0,0)}`. -/
def docAtOrigin : IconHistory := ⟨[⟨L "doc.txt", 0, 0⟩], L "Initial History", false⟩

/-- The arrangement `{("doc.txt",5,5)}`. -/
def docAtFive : IconHistory := ⟨[⟨L "doc.txt", 5, 5⟩], L "Initial History", false⟩

/-- The arrangement `{("a",0,0)}`. -/
def iconA : IconHistory := ⟨[⟨L "a", 0, 0⟩], L "Initial History", false⟩

/-- The arrangement `{("a",0,0),("b",1,1)}`. -/
def iconsAB : IconHistory := ⟨[⟨L "a", 0, 0⟩, ⟨L "b", 1, 1⟩], L "Initial History", false⟩

/-- An icon whose name has 41 characters. -/
def longIcon : Icon := ⟨L "a_very_long_shortcut_name_for_an_icon.lnk", 7, 9⟩

/-- The arrangement of `longIcon` alone. -/
def longIconOnly : IconHistory := ⟨[longIcon], L "Initial History", false⟩

/-! ## Records as sequences of lines -/

/-- The three lines of one icon of a record: name, x and y. -/
def recLines (r : wstring × wstring × wstring) : List wstring := [r.1, r.2.1, r.2.2]

/-- The header lines of a record: the reserved line of a named profile, if it
is one, and the display name. -/
def headerLines (named : Bool) (name : wstring) : List wstring :=
  if named then [IconHistory.named_identifier, name] else [name]

/-- A record of one icon whose x line is not a number. -/
def nonNumericX : wstring :=
  L ": IconHistory \"P\"\r\n\r\nP\r\n1\r\n\r\na\r\nabc\r\n5\r\n\r\n\r\n"

/-- A record of a named profile with the same icon name twice. -/
def duplicateRecord : wstring :=
  L "named_profile\r\nhome\r\n2\r\n\r\na\r\n1\r\n2\r\n\r\na\r\n3\r\n4\r\n\r\n\r\n"

/-! ## The tray menu (saver_gui.cpp)

The menu ids are `int` constants and the choice is a `WPARAM`; the constants
of the program are small, so ids and choices are natural numbers here. The
two conversions to `int` in the index computation are explicit. -/

/-- The Windows constant `WM_USER` (0x0400). -/
def WM_USER : Nat := 1024

/-- The capacities `DesktopSaver::MaxIconHistoryCount` and
`DesktopSaver::MaxProfileCount`. The header saver.h is not among the sources,
so the two constants are parameters. -/
structure Capacities where
  MaxIconHistoryCount : Nat
  MaxProfileCount : Nat
  deriving DecidableEq, Repr

/-- The poll rates tested by `build_dynamic_menu` (enum PollRate of saver.h). -/
inductive PollRate where
  | DisableHistory
  | PollEndpoints
  | Interval1
  | Interval2
  | Interval3
  | Interval4
  deriving DecidableEq, Repr

/-- What the menu code reads from the object `m_saver`: the results of
GetRunOnStartup, GetPollRate, History, NamedProfiles and
GetAutostartProfileName. The lists are in storage order, oldest first. -/
structure SaverState where
  GetRunOnStartup : Bool
  GetPollRate : PollRate
  History : List IconHistory
  NamedProfiles : List IconHistory
  GetAutostartProfileName : wstring
  deriving DecidableEq, Repr

/-- The accessor `GetName()` of an arrangement. -/
def IconHistory.GetName (self : IconHistory) : wstring := self.m_name

/-- Conversion of an integer to a 32-bit `int`, keeping the low 32 bits. -/
def toInt32 (v : Int) : Int := (v + 2147483648) % 4294967296 - 2147483648

namespace DesktopSaverGui

/-- Menu id of the tray message. -/
def WM_TRAYMESSAGE : Nat := WM_USER + 1

/-- Menu id of "Clear History". -/
def WM_Tray_History_Clear : Nat := WM_USER + 2

/-- Menu id of "Exit". -/
def WM_Tray_Exit : Nat := WM_USER + 3

/-- Menu id of "Create new named profile". -/
def WM_Tray_Profile_Create : Nat := WM_USER + 4

/-- Menu id of "Run at Startup". -/
def WM_Tray_On_Startup : Nat := WM_USER + 5

/-- Menu id of "Disable History". -/
def WM_Tray_Disable_History : Nat := WM_USER + 6

/-- Menu id of "Poll at Startup and Shutdown only". -/
def WM_Tray_Poll_Endpoints : Nat := WM_USER + 7

/-- Menu id of "Poll every 5 minutes". -/
def WM_Tray_Poll_Interval1 : Nat := WM_USER + 8

/-- Menu id of "Poll every 20 minutes". -/
def WM_Tray_Poll_Interval2 : Nat := WM_USER + 9

/-- Menu id of "Poll every 60 minutes". -/
def WM_Tray_Poll_Interval3 : Nat := WM_USER + 10

/-- Menu id of "Poll every 360 minutes". -/
def WM_Tray_Poll_Interval4 : Nat := WM_USER + 11

/-- First id of the lookups. -/
def WM_Lookup_Begin : Nat := WM_USER + 12

/-- First id of the history entries. -/
def WM_Tray_History : Nat := WM_Lookup_Begin

/-- First id of the named-profile entries. -/
def WM_Tray_Named_Profile (c : Capacities) : Nat := WM_Tray_History + c.MaxIconHistoryCount

/-- First id of the "Overwrite named profile" entries. -/
def WM_Tray_Profile_Update (c : Capacities) : Nat :=
  WM_Tray_Named_Profile c + c.MaxProfileCount

/-- First id of the "Delete named profile" entries. -/
def WM_Tray_Profile_Delete (c : Capacities) : Nat :=
  WM_Tray_Profile_Update c + c.MaxProfileCount

/-- First id of the "auto-load at startup" entries. -/
def WM_Tray_Profile_Autostart (c : Capacities) : Nat :=
  WM_Tray_Profile_Delete c + c.MaxProfileCount

/-- The id after the lookups, as the source defines it. -/
def WM_Lookup_End (c : Capacities) : Nat := WM_Tray_Profile_Autostart c + 1

/-- The popup menus `build_dynamic_menu` creates besides the main menu. -/
inductive Popup where
  | options
  | profile_update
  | profile_delete
  | profile_autostart
  deriving DecidableEq, Repr

/-- One `AppendMenu` call: an item with its id, text and the flags MF_CHECKED
and MF_GRAYED, a separator, or a popup. -/
inductive MenuEntry where
  | item (id : Nat) (text : wstring) (checked grayed : Bool)
  | separator
  | popup (sub : Popup) (text : wstring) (grayed : Bool)
  deriving DecidableEq, Repr

/-- The menus `build_dynamic_menu` builds: the four popups and the main
menu, each as the sequence of its entries. -/
structure Menus where
  options : List MenuEntry
  profile_update : List MenuEntry
  profile_delete : List MenuEntry
  profile_autostart : List MenuEntry
  menu : List MenuEntry
  deriving DecidableEq, Repr

/-- One of the loops `for (HistoryRevIter i = l.rbegin(); ...) AppendMenu(...,
base + choice++, i->GetName())` of `build_dynamic_menu`, running over the
entries still to come, newest first; `check` decides the flag MF_CHECKED. -/
def appendEntries (base : Nat) (check : wstring → Bool) : Nat → List IconHistory → List MenuEntry
  | _, [] => []
  | choice, i :: rest =>
    MenuEntry.item (base + choice) i.GetName (check i.GetName) false ::
      appendEntries base check (choice + 1) rest

/-- The function `build_dynamic_menu`. -/
def build_dynamic_menu (c : Capacities) (m_saver : SaverState) : Menus :=
  let p := m_saver.GetPollRate
  let options : List MenuEntry :=
    [MenuEntry.item WM_Tray_On_Startup (L "&Run at Startup") m_saver.GetRunOnStartup false,
      MenuEntry.separator,
      MenuEntry.item WM_Tray_Disable_History (L "&Disable History")
        (decide (p = PollRate.DisableHistory)) false,
      MenuEntry.item WM_Tray_Poll_Endpoints (L "Poll at Startup and Shutdown only")
        (decide (p = PollRate.PollEndpoints)) false,
      MenuEntry.item WM_Tray_Poll_Interval1 (L "Poll every 5 minutes")
        (decide (p = PollRate.Interval1)) false,
      MenuEntry.item WM_Tray_Poll_Interval2 (L "Poll every 20 minutes")
        (decide (p = PollRate.Interval2)) false,
      MenuEntry.item WM_Tray_Poll_Interval3 (L "Poll every 60 minutes")
        (decide (p = PollRate.Interval3)) false,
      MenuEntry.item WM_Tray_Poll_Interval4 (L "Poll every 360 minutes")
        (decide (p = PollRate.Interval4)) false]
  let named_profiles := m_saver.NamedProfiles
  let profile_update :=
    appendEntries (WM_Tray_Profile_Update c) (fun _ => false) 0 named_profiles.reverse
  let profile_delete :=
    appendEntries (WM_Tray_Profile_Delete c) (fun _ => false) 0 named_profiles.reverse
  let autostart_profilename := m_saver.GetAutostartProfileName
  let profile_autostart :=
    appendEntries (WM_Tray_Profile_Autostart c)
      (fun name => decide (name = autostart_profilename)) 0 named_profiles.reverse
  let menu : List MenuEntry := []
  let history := m_saver.History
  let menu :=
    if m_saver.GetPollRate ≠ PollRate.DisableHistory then
      menu ++ appendEntries WM_Tray_History (fun _ => false) 0 history.reverse ++
        [MenuEntry.item WM_Tray_History_Clear (L "&Clear History") false
            (decide (¬ history.length > 0)),
          MenuEntry.separator]
    else menu
  let menu := menu ++
    appendEntries (WM_Tray_Named_Profile c) (fun _ => false) 0 named_profiles.reverse
  let too_many_profiles := decide (m_saver.NamedProfiles.length ≥ c.MaxProfileCount)
  let have_profiles := decide (named_profiles.length > 0)
  let menu := menu ++
    [MenuEntry.item WM_Tray_Profile_Create (L "&Create new named profile...") false
        too_many_profiles,
      MenuEntry.popup Popup.profile_update (L "&Overwrite named profile") (!have_profiles),
      MenuEntry.popup Popup.profile_delete (L "&Delete named profile") (!have_profiles),
      MenuEntry.popup Popup.profile_autostart (L "&Set profile to auto-load at startup")
        (!have_profiles),
      MenuEntry.separator,
      MenuEntry.popup Popup.options (L "&Options") false,
      MenuEntry.item WM_Tray_Exit (L "E&xit") false false]
  ⟨options, profile_update, profile_delete, profile_autostart, menu⟩

/-- The five range handlers of the default branch of `message_menu`. -/
inductive Handler where
  | history
  | named_profile
  | profile_update
  | profile_delete
  | profile_autostart
  deriving DecidableEq, Repr

/-- What `message_menu` does with a choice: it runs the body of one of the
case labels of the switch (the bodies do not touch the lookups and are not
modelled further), it runs a range handler with the list index it has
computed, or it reports the unexpected choice by STANDARD_ERROR. -/
inductive MenuEvent where
  | fixed (choice : Nat)
  | lookup (handler : Handler) (index : Int)
  | unexpected
  deriving DecidableEq, Repr

/-- The index computation of a range handler:
`int menu_choice = ((UINT)choice - base);`
`int profile_choice = int(list.size() - menu_choice - 1);`. -/
def listIndex (size choice base : Nat) : Int :=
  let menu_choice := toInt32 ((choice : Int) - (base : Int))
  toInt32 ((size : Int) - menu_choice - 1)

/-- One range handler of `message_menu`: when the choice is in the range of
`count` ids from `base`, the handler runs on the index computed from the size
of its list, and `handled` is set. -/
def rangeHandler (handler : Handler) (base count size choice : Nat)
    (st : Bool × List MenuEvent) : Bool × List MenuEvent :=
  if choice ≥ base + 0 ∧ choice < base + count then
    (true, st.2 ++ [MenuEvent.lookup handler (listIndex size choice base)])
  else st

/-- The function `message_menu`: the events a menu choice leads to. -/
def message_menu (c : Capacities) (m_saver : SaverState) (choice : Nat) : List MenuEvent :=
  if choice = WM_Tray_History_Clear ∨ choice = WM_Tray_Exit ∨ choice = WM_Tray_Profile_Create ∨
      choice = WM_Tray_On_Startup ∨ choice = WM_Tray_Disable_History ∨
      choice = WM_Tray_Poll_Endpoints ∨ choice = WM_Tray_Poll_Interval1 ∨
      choice = WM_Tray_Poll_Interval2 ∨ choice = WM_Tray_Poll_Interval3 ∨
      choice = WM_Tray_Poll_Interval4 then
    [MenuEvent.fixed choice]
  else if choice < WM_Lookup_Begin then []
  else if choice ≥ WM_Lookup_End c then []
  else
    let history := m_saver.History
    let named_profiles := m_saver.NamedProfiles
    let st : Bool × List MenuEvent := (false, [])
    let st := rangeHandler Handler.history WM_Tray_History c.MaxIconHistoryCount
      history.length choice st
    let st := rangeHandler Handler.named_profile (WM_Tray_Named_Profile c) c.MaxProfileCount
      named_profiles.length choice st
    let st := rangeHandler Handler.profile_update (WM_Tray_Profile_Update c) c.MaxProfileCount
      named_profiles.length choice st
    let st := rangeHandler Handler.profile_delete (WM_Tray_Profile_Delete c) c.MaxProfileCount
      named_profiles.length choice st
    let st := rangeHandler Handler.profile_autostart (WM_Tray_Profile_Autostart c)
      c.MaxProfileCount named_profiles.length choice st
    if !st.1 then st.2 ++ [MenuEvent.unexpected] else st.2

end DesktopSaverGui

/-- The element `list[index]` a range handler reads; there is none when the
index is outside the list. -/
def entryAt (list : List IconHistory) (index : Int) : Option IconHistory :=
  if index < 0 then none else list.get? index.toNat

/-! ## Example menus -/

/-- Capacities of three history entries and three named profiles. -/
def smallCapacities : Capacities := ⟨3, 3⟩

/-- A profile store with the named profiles "home" and "work", "work" being
the newer one. -/
def twoProfiles : SaverState :=
  ⟨false, PollRate.Interval1, [iconA, iconsAB],
    [⟨[], L "home", true⟩, ⟨[], L "work", true⟩], L "home"⟩

/-- The arrangement `{("b",1,1),("a",0,0)}`: the icons of `iconsAB` in the
other order, under another name. -/
def iconsBA : IconHistory := ⟨[⟨L "b", 1, 1⟩, ⟨L "a", 0, 0⟩], L "other", false⟩

open IconHistory

/-! ## Identical -/

theorem hasCounterpart_iff (i : Icon) (l : List Icon) :
    hasCounterpart i l = true ↔ ∃ j ∈ l, j.name = i.name ∧ j.x = i.x ∧ j.y = i.y := by
  induction l with
  | nil => simp [hasCounterpart]
  | cons j js ih =>
    unfold hasCounterpart
    by_cases h : i.name ≠ j.name ∨ i.x ≠ j.x ∨ i.y ≠ j.y
    · rw [if_pos h, ih]
      constructor
      · rintro ⟨k, hk, hk2⟩
        exact ⟨k, List.mem_cons_of_mem _ hk, hk2⟩
      · rintro ⟨k, hk, hn, hx, hy⟩
        rcases List.mem_cons.mp hk with rfl | hk
        · exfalso
          rcases h with h | h | h
          · exact h hn.symm
          · exact h hx.symm
          · exact h hy.symm
        · exact ⟨k, hk, hn, hx, hy⟩
    · rw [if_neg h]
      simp only [not_or, not_not] at h
      simp only [true_iff]
      exact ⟨j, List.mem_cons_self _ _, h.1.symm, h.2.1.symm, h.2.2.symm⟩

theorem allHaveCounterpart_iff (l other : List Icon) :
    allHaveCounterpart l other = true ↔ ∀ i ∈ l, hasCounterpart i other = true := by
  induction l with
  | nil => simp [allHaveCounterpart]
  | cons i is ih =>
    unfold allHaveCounterpart
    cases h : hasCounterpart i other <;> simp [ih, h]

/-- C1: `Identical(A, B)` returns true if and only if every icon of A has an
icon in B with the same name, x and y, and every icon of B has an icon in A
with the same name, x and y. -/
theorem identical_iff_counterparts (A B : IconHistory) :
    A.Identical B = true ↔
      (∀ i ∈ A.m_icons, ∃ j ∈ B.m_icons, j.name = i.name ∧ j.x = i.x ∧ j.y = i.y) ∧
      (∀ i ∈ B.m_icons, ∃ j ∈ A.m_icons, j.name = i.name ∧ j.x = i.x ∧ j.y = i.y) := by
  unfold Identical
  cases h1 : allHaveCounterpart A.m_icons B.m_icons <;>
    cases h2 : allHaveCounterpart B.m_icons A.m_icons <;>
    simp [← hasCounterpart_iff, ← allHaveCounterpart_iff, h1, h2]

/-! ## The two passes of CalculateName -/

theorem scanForName_fst (i : Icon) (l : List Icon) :
    (scanForName i l).1 = l.any (fun j => decide (j.name = i.name)) := by
  induction l with
  | nil => rfl
  | cons j js ih =>
    unfold scanForName
    by_cases h : i.name ≠ j.name
    · have h2 : ¬ j.name = i.name := fun e => h e.symm
      rw [if_pos h, ih]
      simp [h2]
    · rw [if_neg h]
      have h2 : j.name = i.name := (not_not.mp h).symm
      simp [h2]

theorem scanForName_moved (i : Icon) (l : List Icon) (hl : UniqueNames l) :
    ((scanForName i l).1 && (scanForName i l).2) =
      l.any (fun j => decide (j.name = i.name ∧ (j.x ≠ i.x ∨ j.y ≠ i.y))) := by
  induction l with
  | nil => rfl
  | cons j js ih =>
    have hu : j.name ∉ js.map Icon.name ∧ UniqueNames js := by
      simpa [UniqueNames] using hl
    unfold scanForName
    by_cases h : i.name ≠ j.name
    · have h2 : ¬ j.name = i.name := fun e => h e.symm
      rw [if_pos h, ih hu.2]
      simp [h2]
    · rw [if_neg h]
      have h2 : j.name = i.name := (not_not.mp h).symm
      have h3 : js.any (fun k => decide (k.name = i.name ∧ (k.x ≠ i.x ∨ k.y ≠ i.y))) = false := by
        rw [List.any_eq_false]
        intro k hk
        have : k.name ≠ i.name := by
          intro e
          exact hu.1 (List.mem_map.mpr ⟨k, hk, e.trans h2.symm⟩)
        simp [this]
      rw [List.any_cons, h3]
      simp only [Bool.true_and, Bool.or_false, h2, true_and]
      congr 1
      apply propext
      constructor
      · rintro (h | h)
        · exact Or.inl (fun e => h e.symm)
        · exact Or.inr (fun e => h e.symm)
      · rintro (h | h)
        · exact Or.inl (fun e => h e.symm)
        · exact Or.inr (fun e => h e.symm)

theorem lastName_eq_foldl (l : List Icon) (old : wstring) :
    l.foldl (fun _ i => i.name) old = if l = [] then old else lastName l := by
  induction l generalizing old with
  | nil => rfl
  | cons a l ih =>
    rw [List.foldl_cons, ih]
    cases l with
    | nil => simp [lastName]
    | cons b l => simp [lastName, List.getLast?_cons_cons]

theorem lastName_singleton (i : Icon) : lastName [i] = i.name := rfl

theorem foldl_passOneStep (P : List Icon) (C : List Icon) (t : Tally) :
    C.foldl (passOneStep P) t =
      { iconsAdd := t.iconsAdd + (C.filter (fun i => !(scanForName i P).1)).length,
        iconsDel := t.iconsDel,
        iconsMov := t.iconsMov +
          (C.filter (fun i => (scanForName i P).1 && (scanForName i P).2)).length,
        addName := (C.filter (fun i => !(scanForName i P).1)).foldl (fun _ i => i.name) t.addName,
        delName := t.delName,
        movName := (C.filter (fun i => (scanForName i P).1 && (scanForName i P).2)).foldl
          (fun _ i => i.name) t.movName } := by
  induction C generalizing t with
  | nil => simp
  | cons i is ih =>
    rw [List.foldl_cons, ih]
    unfold passOneStep
    rcases h : scanForName i P with ⟨f, m⟩
    cases f <;> cases m <;> simp [h, List.filter_cons] <;> omega

theorem foldl_passTwoStep (C : List Icon) (P : List Icon) (t : Tally) :
    P.foldl (passTwoStep C) t =
      { iconsAdd := t.iconsAdd,
        iconsDel := t.iconsDel + (P.filter (fun i => !(scanForName i C).1)).length,
        iconsMov := t.iconsMov,
        addName := t.addName,
        delName := (P.filter (fun i => !(scanForName i C).1)).foldl (fun _ i => i.name) t.delName,
        movName := t.movName } := by
  induction P generalizing t with
  | nil => simp
  | cons i is ih =>
    rw [List.foldl_cons, ih]
    unfold passTwoStep
    cases h : (scanForName i C).1
    · simp [h, List.filter_cons]; omega
    · simp [h, List.filter_cons]

theorem tally_eq (A B : IconHistory) (hB : UniqueNames B.m_icons) :
    tally A B =
      { iconsAdd := (addedIcons A.m_icons B.m_icons).length,
        iconsDel := (deletedIcons A.m_icons B.m_icons).length,
        iconsMov := (movedIcons A.m_icons B.m_icons).length,
        addName := lastName (addedIcons A.m_icons B.m_icons),
        delName := lastName (deletedIcons A.m_icons B.m_icons),
        movName := lastName (movedIcons A.m_icons B.m_icons) } := by
  unfold tally
  simp only []
  rw [foldl_passOneStep, foldl_passTwoStep]
  have e1 : (fun i => !(scanForName i B.m_icons).1) =
      (fun i => !B.m_icons.any (fun j => decide (j.name = i.name))) := by
    funext i; rw [scanForName_fst]
  have e2 : (fun i => (scanForName i B.m_icons).1 && (scanForName i B.m_icons).2) =
      (fun i => B.m_icons.any (fun j => decide (j.name = i.name ∧ (j.x ≠ i.x ∨ j.y ≠ i.y)))) := by
    funext i; rw [scanForName_moved i _ hB]
  have e3 : (fun i => !(scanForName i A.m_icons).1) =
      (fun i => !A.m_icons.any (fun j => decide (j.name = i.name))) := by
    funext i; rw [scanForName_fst]
  have e4 : ∀ l : List Icon, (if l = [] then ([] : wstring) else lastName l) = lastName l := by
    intro l
    by_cases h : l = []
    · rw [if_pos h, h]; rfl
    · rw [if_neg h]
  simp only [e1, e2, e3, lastName_eq_foldl, e4, Nat.zero_add, addedIcons, movedIcons,
    deletedIcons]

/-! ## The label -/

theorem L_append_ne_nil (s : String) (hs : s.data ≠ []) (a : wstring) : a ++ L s ≠ [] := by
  intro h
  exact hs (List.append_eq_nil.mp h).2

theorem specBase_eq_nil (a d : Nat) : specBase a d = [] ↔ a = 0 ∧ d = 0 := by
  unfold specBase
  by_cases ha : a > 0 <;> by_cases hd : d > 0
  · simp only [ha, hd, and_self, if_true]
    constructor
    · intro h; exact absurd h (L_append_ne_nil _ (by decide) _)
    · intro h; omega
  · simp only [ha, hd, and_false, if_false, if_true]
    constructor
    · intro h; exact absurd h (L_append_ne_nil _ (by decide) _)
    · intro h; omega
  · simp only [ha, hd, false_and, if_false, if_true]
    constructor
    · intro h; exact absurd h (L_append_ne_nil _ (by decide) _)
    · intro h; omega
  · simp only [ha, hd, false_and, if_false]
    constructor
    · intro _; omega
    · intro _; trivial

theorem composeName_eq_specLabel (m_name : wstring) (t : Tally) :
    composeName m_name t =
      specLabel t.iconsAdd t.iconsDel t.iconsMov (trim t.addName) (trim t.delName)
        (trim t.movName) := by
  have hb : (if t.iconsAdd > 0 ∧ t.iconsDel > 0 then
        decimal t.iconsAdd ++ L " Added, " ++ decimal t.iconsDel ++ L " Deleted"
      else if t.iconsDel > 0 then decimal t.iconsDel ++ L " Deleted"
      else if t.iconsAdd > 0 then decimal t.iconsAdd ++ L " Added" else L "") =
      specBase t.iconsAdd t.iconsDel := by
    unfold specBase
    by_cases ha : t.iconsAdd > 0 <;> by_cases hd : t.iconsDel > 0 <;>
      simp only [ha, hd, and_self, and_false, false_and, if_true, if_false]
    all_goals rfl
  have he : (if (specBase t.iconsAdd t.iconsDel).length > 0 then
        L " (" ++ specBase t.iconsAdd t.iconsDel ++ L ")" else L "") =
      specExtra t.iconsAdd t.iconsDel := by
    unfold specExtra
    by_cases h : specBase t.iconsAdd t.iconsDel = []
    · rw [h]; rfl
    · rw [if_pos (List.length_pos.mpr h), if_pos h]
  unfold composeName
  simp only [hb, he]
  unfold specLabel
  rcases Nat.lt_trichotomy t.iconsMov 1 with h | h | h
  · have h0 : t.iconsMov = 0 := by omega
    simp only [h0]
    by_cases h1 : t.iconsAdd = 1 ∧ t.iconsDel = 0
    · have : ¬ (t.iconsAdd = 0 ∧ t.iconsDel = 1) := by omega
      simp [h1, this]
    · by_cases h2 : t.iconsAdd = 0 ∧ t.iconsDel = 1
      · simp [h1, h2]
      · simp [h1, h2]
  · simp [h]
  · have h1 : t.iconsMov > 0 := by omega
    have h2 : ¬ t.iconsMov = 1 := by omega
    have h3 : ¬ t.iconsMov = 0 := by omega
    simp [h, h1, h2, h3]

theorem specLabel_eq_nil (a d m : Nat) (an dn mn : wstring) :
    specLabel a d m an dn mn = [] ↔ a = 0 ∧ d = 0 ∧ m = 0 := by
  unfold specLabel
  by_cases h1 : m > 1
  · rw [if_pos h1]
    constructor
    · intro h
      rw [List.append_assoc] at h
      have := (List.append_eq_nil.mp h).2
      exact absurd (List.append_eq_nil.mp this).1 (by decide)
    · intro h; omega
  · rw [if_neg h1]
    by_cases h2 : m = 1
    · rw [if_pos h2]
      constructor
      · intro h
        simp only [List.append_assoc] at h
        exact absurd (List.append_eq_nil.mp h).1 (by decide)
      · intro h; omega
    · rw [if_neg h2]
      have hm : m = 0 := by omega
      by_cases h3 : a = 1 ∧ d = 0
      · rw [if_pos h3]
        constructor
        · intro h
          simp only [List.append_assoc] at h
          exact absurd (List.append_eq_nil.mp h).1 (by decide)
        · intro h; omega
      · rw [if_neg h3]
        by_cases h4 : a = 0 ∧ d = 1
        · rw [if_pos h4]
          constructor
          · intro h
            simp only [List.append_assoc] at h
            exact absurd (List.append_eq_nil.mp h).1 (by decide)
          · intro h; omega
        · rw [if_neg h4, specBase_eq_nil]
          constructor
          · intro h; exact ⟨h.1, h.2, hm⟩
          · intro h; exact ⟨h.1, h.2.1⟩

theorem eq_of_name_eq {l : List Icon} (hl : UniqueNames l) {j k : Icon}
    (hj : j ∈ l) (hk : k ∈ l) (h : j.name = k.name) : j = k :=
  List.inj_on_of_nodup_map hl hj hk h

theorem addedIcons_eq_nil (C P : List Icon) :
    addedIcons C P = [] ↔ ∀ i ∈ C, ∃ j ∈ P, j.name = i.name := by
  simp [addedIcons, List.filter_eq_nil_iff]

theorem deletedIcons_eq_nil (C P : List Icon) :
    deletedIcons C P = [] ↔ ∀ i ∈ P, ∃ j ∈ C, j.name = i.name := by
  simp [deletedIcons, List.filter_eq_nil_iff]

theorem movedIcons_eq_nil (C P : List Icon) :
    movedIcons C P = [] ↔ ∀ i ∈ C, ∀ j ∈ P, j.name = i.name → j.x = i.x ∧ j.y = i.y := by
  simp only [movedIcons, List.filter_eq_nil_iff, List.any_eq_true, decide_eq_true_eq, not_exists,
    not_and, not_or, not_not]

theorem identical_iff_no_change (A B : IconHistory) (hB : UniqueNames B.m_icons) :
    A.Identical B = true ↔
      addedIcons A.m_icons B.m_icons = [] ∧ deletedIcons A.m_icons B.m_icons = [] ∧
        movedIcons A.m_icons B.m_icons = [] := by
  rw [identical_iff_counterparts, addedIcons_eq_nil, deletedIcons_eq_nil, movedIcons_eq_nil]
  constructor
  · rintro ⟨h1, h2⟩
    refine ⟨?_, ?_, ?_⟩
    · intro i hi
      obtain ⟨j, hj, hn, _⟩ := h1 i hi
      exact ⟨j, hj, hn⟩
    · intro i hi
      obtain ⟨j, hj, hn, _⟩ := h2 i hi
      exact ⟨j, hj, hn⟩
    · intro i hi j hj hn
      obtain ⟨k, hk, hkn, hkx, hky⟩ := h1 i hi
      have : k = j := eq_of_name_eq hB hk hj (hkn.trans hn.symm)
      subst this
      exact ⟨hkx, hky⟩
  · rintro ⟨ha, hd, hm⟩
    constructor
    · intro i hi
      obtain ⟨j, hj, hn⟩ := ha i hi
      exact ⟨j, hj, hn, (hm i hi j hj hn).1, (hm i hi j hj hn).2⟩
    · intro i hi
      obtain ⟨j, hj, hn⟩ := hd i hi
      have := hm j hj i hi hn.symm
      exact ⟨j, hj, hn, this.1.symm, this.2.symm⟩

/-! ## Properties of Identical and CalculateName -/

/-- C1: `Identical(A, B)` returns true if and only if every icon of A has an
icon in B with the same name, x and y, and every icon of B has an icon in A
with the same name, x and y. -/
theorem Identical_true_iff (A B : IconHistory) :
    A.Identical B = true ↔
      (∀ i ∈ A.m_icons, ∃ j ∈ B.m_icons, j.name = i.name ∧ j.x = i.x ∧ j.y = i.y) ∧
      (∀ i ∈ B.m_icons, ∃ j ∈ A.m_icons, j.name = i.name ∧ j.x = i.x ∧ j.y = i.y) :=
  identical_iff_counterparts A B

theorem label_eq_specLabel (A B : IconHistory) (hB : UniqueNames B.m_icons) :
    (A.CalculateName B).m_name =
      specLabel (addedIcons A.m_icons B.m_icons).length (deletedIcons A.m_icons B.m_icons).length
        (movedIcons A.m_icons B.m_icons).length
        (trim (lastName (addedIcons A.m_icons B.m_icons)))
        (trim (lastName (deletedIcons A.m_icons B.m_icons)))
        (trim (lastName (movedIcons A.m_icons B.m_icons))) := by
  unfold CalculateName
  simp only [composeName_eq_specLabel, tally_eq A B hB]

/-- C4: for arrangements A and B with unique icon names (only the uniqueness in
B is needed), `Identical(A, B)` is true if and only if the diff of
`CalculateName(A, B)` counts no added, no deleted and no moved icon, and that
is the case if and only if the resulting label is the empty string. -/
theorem Identical_iff_counts_zero (A B : IconHistory) (hB : UniqueNames B.m_icons) :
    (A.Identical B = true ↔
      (tally A B).iconsAdd = 0 ∧ (tally A B).iconsDel = 0 ∧ (tally A B).iconsMov = 0) ∧
    ((tally A B).iconsAdd = 0 ∧ (tally A B).iconsDel = 0 ∧ (tally A B).iconsMov = 0 ↔
      (A.CalculateName B).m_name = []) := by
  constructor
  · rw [identical_iff_no_change A B hB, tally_eq A B hB]
    simp only [List.length_eq_zero]
  · unfold CalculateName
    simp only [composeName_eq_specLabel, specLabel_eq_nil]

/-- Witness of C4 at `{("a",0,0),("b",1,1)}` against `{("a",0,0)}`. -/
theorem Identical_iff_counts_zero_witness :
    UniqueNames iconA.m_icons ∧
    (iconsAB.Identical iconA = true ↔
      (tally iconsAB iconA).iconsAdd = 0 ∧ (tally iconsAB iconA).iconsDel = 0 ∧
        (tally iconsAB iconA).iconsMov = 0) :=
  ⟨by unfold UniqueNames; decide,
    (Identical_iff_counts_zero iconsAB iconA (by unfold UniqueNames; decide)).1⟩

/-- C5, as the code has it: `CalculateName` applied to the current arrangement
`{("a",0,0),("b",1,1)}` with previous arrangement `{("a",0,0)}` sets the label
to "'b' Added": the one added icon is named. -/
theorem scenario_C_names_added_icon : (iconsAB.CalculateName iconA).m_name = L "'b' Added" := by
  decide

/-- C5 as stated fails: the label of `{("a",0,0),("b",1,1)}` against
`{("a",0,0)}` is not "1 Added". -/
theorem scenario_C_not_one_added : (iconsAB.CalculateName iconA).m_name ≠ L "1 Added" := by
  decide

/-- C6: for arrangements with unique icon names (only the uniqueness in the
previous one is needed), the label `CalculateName` assigns is the one the
specification determines from the numbers of added, deleted and moved icons and
the (trimmed) names of the sole added, deleted or moved icon; and the three
scenarios: `{("doc.txt",0,0)}` against `{}` gives "'doc.txt' Added",
`{("doc.txt",5,5)}` against `{("doc.txt",0,0)}` gives "'doc.txt' Moved", and
`{}` against `{("a",0,0),("b",1,1)}` gives "2 Deleted". -/
theorem CalculateName_label (A B : IconHistory) (hB : UniqueNames B.m_icons) :
    (A.CalculateName B).m_name =
      specLabel (addedIcons A.m_icons B.m_icons).length (deletedIcons A.m_icons B.m_icons).length
        (movedIcons A.m_icons B.m_icons).length
        (trim (lastName (addedIcons A.m_icons B.m_icons)))
        (trim (lastName (deletedIcons A.m_icons B.m_icons)))
        (trim (lastName (movedIcons A.m_icons B.m_icons))) ∧
    (docAtOrigin.CalculateName noIcons).m_name = L "'doc.txt' Added" ∧
    (docAtFive.CalculateName docAtOrigin).m_name = L "'doc.txt' Moved" ∧
    (noIcons.CalculateName iconsAB).m_name = L "2 Deleted" :=
  ⟨label_eq_specLabel A B hB, by decide, by decide, by decide⟩

/-- Witness of C6 at `{("doc.txt",5,5)}` against `{("doc.txt",0,0)}`. -/
theorem CalculateName_label_witness :
    UniqueNames docAtOrigin.m_icons ∧
    (docAtFive.CalculateName docAtOrigin).m_name =
      specLabel 0 0 1 [] [] (L "doc.txt") :=
  ⟨by unfold UniqueNames; decide,
    (CalculateName_label docAtFive docAtOrigin (by unfold UniqueNames; decide)).1⟩

/-- C9: when exactly one icon `i` is added, deleted or moved, the label shows
the first 30 characters of its name followed by "..." if the name is longer
than 30 characters and the whole name otherwise; `CalculateName` leaves the
icons of the arrangement as they are. -/
theorem CalculateName_trims_exemplar (A B : IconHistory) (i : Icon)
    (hB : UniqueNames B.m_icons) :
    (addedIcons A.m_icons B.m_icons = [i] → deletedIcons A.m_icons B.m_icons = [] →
      movedIcons A.m_icons B.m_icons = [] →
      (A.CalculateName B).m_name =
        L "'" ++ (if i.name.length > 30 then i.name.take 30 ++ L "..." else i.name) ++
          L "' Added") ∧
    (deletedIcons A.m_icons B.m_icons = [i] → addedIcons A.m_icons B.m_icons = [] →
      movedIcons A.m_icons B.m_icons = [] →
      (A.CalculateName B).m_name =
        L "'" ++ (if i.name.length > 30 then i.name.take 30 ++ L "..." else i.name) ++
          L "' Deleted") ∧
    (movedIcons A.m_icons B.m_icons = [i] →
      (A.CalculateName B).m_name =
        L "'" ++ (if i.name.length > 30 then i.name.take 30 ++ L "..." else i.name) ++
          L "' Moved" ++
          specExtra (addedIcons A.m_icons B.m_icons).length
            (deletedIcons A.m_icons B.m_icons).length) ∧
    (A.CalculateName B).m_icons = A.m_icons := by
  refine ⟨?_, ?_, ?_, rfl⟩
  · intro ha hd hm
    rw [label_eq_specLabel A B hB, ha, hd, hm]
    rfl
  · intro hd ha hm
    rw [label_eq_specLabel A B hB, ha, hd, hm]
    rfl
  · intro hm
    rw [label_eq_specLabel A B hB, hm]
    rfl

/-- Witness of C9: an added icon with a name of 41 characters. -/
theorem CalculateName_trims_exemplar_witness :
    (longIconOnly.CalculateName noIcons).m_name = L "'a_very_long_shortcut_name_for_...' Added" :=
  (CalculateName_trims_exemplar longIconOnly noIcons longIcon (by unfold UniqueNames; decide)).1
    (by decide) (by decide) (by decide)

/-! ## Decimal text and its extraction -/

theorem extractLong_bad (s : wstring) : (extractLong s).bad = false := by
  unfold extractLong
  simp only []
  split_ifs <;> rfl

theorem mem_insert_imp (icon : Icon) (l : List Icon) (k : Icon)
    (hk : k ∈ IconList.insert icon l) : k = icon ∨ k ∈ l := by
  induction l with
  | nil =>
    simp only [IconList.insert, List.mem_singleton] at hk
    exact Or.inl hk
  | cons j js ih =>
    unfold IconList.insert at hk
    by_cases h1 : icon.name < j.name
    · rw [if_pos h1] at hk
      rcases List.mem_cons.mp hk with h | h
      · exact Or.inl h
      · exact Or.inr h
    · rw [if_neg h1] at hk
      by_cases h2 : j.name < icon.name
      · rw [if_pos h2] at hk
        rcases List.mem_cons.mp hk with h | h
        · exact Or.inr (h ▸ List.mem_cons_self _ _)
        · rcases ih h with h | h
          · exact Or.inl h
          · exact Or.inr (List.mem_cons_of_mem _ h)
      · rw [if_neg h2] at hk
        exact Or.inr hk

theorem insert_eq_self (icon : Icon) (l : List Icon) (hord : IconList.Ordered l)
    (h : ∃ j ∈ l, j.name = icon.name) : IconList.insert icon l = l := by
  induction l with
  | nil =>
    obtain ⟨j, hj, _⟩ := h
    cases hj
  | cons j js ih =>
    have ho := List.pairwise_cons.mp hord
    obtain ⟨k, hk, hkn⟩ := h
    unfold IconList.insert
    by_cases h1 : icon.name < j.name
    · exfalso
      rcases List.mem_cons.mp hk with rfl | hk
      · rw [hkn] at h1; exact lt_irrefl _ h1
      · have := ho.1 k hk
        rw [hkn] at this
        exact lt_irrefl _ (lt_trans h1 this)
    · rw [if_neg h1]
      by_cases h2 : j.name < icon.name
      · rw [if_pos h2]
        rcases List.mem_cons.mp hk with rfl | hk
        · rw [hkn] at h2; exact absurd h2 (lt_irrefl _)
        · rw [ih ho.2 ⟨k, hk, hkn⟩]
      · rw [if_neg h2]

theorem insert_perm (icon : Icon) (l : List Icon) (h : ∀ j ∈ l, j.name ≠ icon.name) :
    (IconList.insert icon l).Perm (icon :: l) := by
  induction l with
  | nil => exact List.Perm.refl _
  | cons j js ih =>
    unfold IconList.insert
    by_cases h1 : icon.name < j.name
    · rw [if_pos h1]
    · rw [if_neg h1]
      by_cases h2 : j.name < icon.name
      · rw [if_pos h2]
        have := ih (fun k hk => h k (List.mem_cons_of_mem _ hk))
        exact (List.Perm.cons j this).trans (List.Perm.swap icon j js)
      · exfalso
        rcases lt_trichotomy icon.name j.name with h3 | h3 | h3
        · exact h1 h3
        · exact h j (List.mem_cons_self _ _) h3.symm
        · exact h2 h3

theorem insert_ordered (icon : Icon) (l : List Icon) (hord : IconList.Ordered l) :
    IconList.Ordered (IconList.insert icon l) := by
  induction l with
  | nil => exact List.pairwise_singleton _ _
  | cons j js ih =>
    have ho := List.pairwise_cons.mp hord
    unfold IconList.insert
    by_cases h1 : icon.name < j.name
    · rw [if_pos h1]
      apply List.pairwise_cons.mpr
      refine ⟨?_, hord⟩
      intro k hk
      rcases List.mem_cons.mp hk with rfl | hk
      · exact h1
      · exact lt_trans h1 (ho.1 k hk)
    · rw [if_neg h1]
      by_cases h2 : j.name < icon.name
      · rw [if_pos h2]
        apply List.pairwise_cons.mpr
        refine ⟨?_, ih ho.2⟩
        intro k hk
        rcases mem_insert_imp icon js k hk with rfl | hk
        · exact h2
        · exact ho.1 k hk
      · rw [if_neg h2]
        exact hord

theorem ordered_uniqueNames (l : List Icon) (hord : IconList.Ordered l) : UniqueNames l := by
  unfold UniqueNames List.Nodup
  rw [List.pairwise_map]
  exact List.Pairwise.imp (fun h => ne_of_lt h) hord

theorem insertAll_ordered (icons : List Icon) (l : List Icon) (hord : IconList.Ordered l) :
    IconList.Ordered (insertAll icons l) := by
  induction icons generalizing l with
  | nil => exact hord
  | cons i is ih => exact ih _ (insert_ordered i l hord)

theorem DeserializeIcons_keeps_header (n : Nat) : ∀ (self : IconHistory) (fr : FileReader),
    (DeserializeIcons n self fr).self.m_name = self.m_name ∧
      (DeserializeIcons n self fr).self.m_named_profile = self.m_named_profile := by
  induction n with
  | zero => intro self fr; exact ⟨rfl, rfl⟩
  | succ n ih =>
    intro self fr
    unfold DeserializeIcons
    simp only []
    split
    · rw [(ih _ _).1, (ih _ _).2]; exact ⟨rfl, rfl⟩
    · exact ⟨rfl, rfl⟩

theorem DeserializeIcons_ordered (n : Nat) : ∀ (self : IconHistory) (fr : FileReader),
    IconList.Ordered self.m_icons → IconList.Ordered (DeserializeIcons n self fr).self.m_icons := by
  induction n with
  | zero => intro self fr h; exact h
  | succ n ih =>
    intro self fr h
    unfold DeserializeIcons
    simp only []
    split
    · exact ih _ _ (insert_ordered _ _ h)
    · exact h

theorem DeserializeIcons_recs (recs : List (wstring × wstring × wstring)) :
    ∀ (self : IconHistory) (rest : List wstring), (∀ r ∈ recs, r.1 ≠ []) →
    DeserializeIcons recs.length self ⟨recs.flatMap recLines ++ rest⟩ =
      ⟨true, (recs.map parsedIcon).foldl AddIcon self, ⟨rest⟩, []⟩ := by
  induction recs with
  | nil => intro self rest _; rfl
  | cons r rs ih =>
    intro self rest h
    have hr : r.1.length > 0 := List.length_pos.mpr (h r (List.mem_cons_self _ _))
    rw [List.length_cons]
    unfold DeserializeIcons
    simp only [List.flatMap_cons, recLines, List.cons_append, List.nil_append,
      FileReader.ReadLine, extractLong_bad, hr, Bool.not_false, Bool.and_self, decide_True,
      if_true, List.map_cons, List.foldl_cons]
    rw [ih _ _ (fun r hr => h r (List.mem_cons_of_mem _ hr))]
    rfl

theorem deserialize_after_header (self : IconHistory) (named : Bool) (name countLine : wstring)
    (ls : List wstring) (hname : name ≠ [])
    (hid : named = false → name ≠ named_identifier) :
    Deserialize self ⟨headerLines named name ++ countLine :: ls⟩ =
      DeserializeIcons (extractLong countLine).value.toNat ⟨[], name, named⟩ ⟨ls⟩ := by
  have hlen : ¬ name.length ≤ 0 := by
    have := List.length_pos.mpr hname
    omega
  cases named with
  | true =>
    have h1 : ¬ named_identifier.length ≤ 0 := by decide
    unfold Deserialize
    simp only [headerLines, if_true, List.cons_append, List.nil_append, FileReader.ReadLine,
      if_neg h1, if_neg hlen]
  | false =>
    have h1 : name ≠ named_identifier := hid rfl
    unfold Deserialize
    simp only [headerLines, Bool.false_eq_true, if_false, List.cons_append, List.nil_append,
      FileReader.ReadLine, if_neg h1, if_neg hlen]

/-! ## The text of Serialize and the lines a reader takes from it -/

/-- C3 fails on the code: whatever the x line and the y line of an icon are,
`Deserialize` accepts the icon. For the record with icon count 1 and x line
"abc", whose extraction fails, it returns true, reports nothing and stores the
icon with x = 0. -/
theorem nonNumericX_accepted :
    (∀ xLine yLine : wstring,
      (Deserialize (IconHistory.new false) ⟨[L "P", L "1", L "a", xLine, yLine]⟩).ret = true ∧
      (Deserialize (IconHistory.new false) ⟨[L "P", L "1", L "a", xLine, yLine]⟩).errors = []) ∧
    (FileReader.ofText nonNumericX).pending = [L "P", L "1", L "a", L "abc", L "5"] ∧
    (extractLong (L "abc")).fail = true ∧
    Deserialize (IconHistory.new false) ⟨[L "P", L "1", L "a", L "abc", L "5"]⟩ =
      ⟨true, ⟨[⟨L "a", 0, 5⟩], L "P", false⟩, ⟨[]⟩, []⟩ := by
  refine ⟨?_, by decide, by decide, by decide⟩
  intro xLine yLine
  have h := deserialize_after_header (IconHistory.new false) false (L "P") (L "1")
    ([(L "a", xLine, yLine)].flatMap recLines ++ []) (by decide) (by decide)
  have h2 := DeserializeIcons_recs [(L "a", xLine, yLine)] ⟨[], L "P", false⟩ []
    (by
      intro r hr
      rw [List.mem_singleton] at hr
      rw [hr]
      exact (by decide : L "a" ≠ []))
  have h1 : (extractLong (L "1")).value.toNat = 1 := by decide
  have h3 : (extractLong (L "1")).value.toNat = [(L "a", xLine, yLine)].length := h1
  rw [h3, h2] at h
  have h4 : (⟨[L "P", L "1", L "a", xLine, yLine]⟩ : FileReader) =
      ⟨headerLines false (L "P") ++ L "1" :: ([(L "a", xLine, yLine)].flatMap recLines ++ [])⟩ :=
    rfl
  rw [h4, h]
  exact ⟨rfl, rfl⟩

/-- C8: under `AddIcon` the icon names of an arrangement stay unique: adding an
icon whose name is present leaves the arrangement as it is, adding an icon with
a new name adds exactly that icon, and the names are unique afterwards.
`Deserialize` inserts the icons it parses by `AddIcon`, one at a time in the
order of the record, so its result has unique names as well. -/
theorem AddIcon_keeps_names_unique (h : IconHistory) (icon : Icon)
    (hord : IconList.Ordered h.m_icons) :
    ((∃ j ∈ h.m_icons, j.name = icon.name) → h.AddIcon icon = h) ∧
    ((∀ j ∈ h.m_icons, j.name ≠ icon.name) →
      (h.AddIcon icon).m_icons.Perm (icon :: h.m_icons)) ∧
    IconList.Ordered (h.AddIcon icon).m_icons ∧
    UniqueNames (h.AddIcon icon).m_icons ∧
    (∀ (self : IconHistory) (named : Bool) (name countLine : wstring)
      (recs : List (wstring × wstring × wstring)) (rest : List wstring),
      name ≠ [] → (named = false → name ≠ named_identifier) → (∀ r ∈ recs, r.1 ≠ []) →
      (extractLong countLine).value = recs.length →
      Deserialize self ⟨headerLines named name ++ countLine :: (recs.flatMap recLines ++ rest)⟩ =
        ⟨true, (recs.map parsedIcon).foldl AddIcon ⟨[], name, named⟩, ⟨rest⟩, []⟩) ∧
    (∀ (self : IconHistory) (fr : FileReader), UniqueNames (Deserialize self fr).self.m_icons) := by
  refine ⟨?_, ?_, insert_ordered icon _ hord,
    ordered_uniqueNames _ (insert_ordered icon _ hord), ?_, ?_⟩
  · intro hex
    rcases h with ⟨icons, name, named⟩
    simp only [AddIcon, insert_eq_self icon icons hord hex]
  · intro hnew
    exact insert_perm icon _ hnew
  · intro self named name countLine recs rest hname hid hrecs hcount
    rw [deserialize_after_header self named name countLine _ hname hid, hcount, Int.toNat_ofNat,
      DeserializeIcons_recs recs _ rest hrecs]
  · intro self fr
    apply ordered_uniqueNames
    unfold Deserialize
    simp only []
    split_ifs
    · exact List.Pairwise.nil
    · exact List.Pairwise.nil
    · exact DeserializeIcons_ordered _ _ _ List.Pairwise.nil
    · exact DeserializeIcons_ordered _ _ _ List.Pairwise.nil

/-- Witness of C8: adding ("a", 9, 9) to `{("a",0,0),("b",1,1)}` changes
nothing, and of a record with the icon name "a" twice the first icon is kept. -/
theorem AddIcon_keeps_names_unique_witness :
    IconList.Ordered iconsAB.m_icons ∧ iconsAB.AddIcon ⟨L "a", 9, 9⟩ = iconsAB ∧
    (Deserialize (IconHistory.new false) (FileReader.ofText duplicateRecord)).self.m_icons =
      [⟨L "a", 1, 2⟩] :=
  ⟨by unfold IconList.Ordered; decide,
    (AddIcon_keeps_names_unique iconsAB ⟨L "a", 9, 9⟩ (by unfold IconList.Ordered; decide)).1
      ⟨⟨L "a", 0, 0⟩, by decide, by decide⟩,
    by decide⟩

/-- C10: when `Deserialize` succeeds and the first line read is exactly
"named_profile", the result is a named profile whose display name is the
second line; when it succeeds and the first line is anything else, the result
is not a named profile, whatever the flag was before, and its display name is
the first line. When the first line is empty, `Deserialize` fails. -/
theorem Deserialize_header (self : IconHistory) (fr : FileReader) :
    ((Deserialize self fr).ret = true → fr.ReadLine.1 = named_identifier →
      (Deserialize self fr).self.m_named_profile = true ∧
        (Deserialize self fr).self.m_name = fr.ReadLine.2.ReadLine.1) ∧
    ((Deserialize self fr).ret = true → fr.ReadLine.1 ≠ named_identifier →
      (Deserialize self fr).self.m_named_profile = false ∧
        (Deserialize self fr).self.m_name = fr.ReadLine.1) ∧
    (fr.ReadLine.1 = [] → (Deserialize self fr).ret = false) := by
  refine ⟨?_, ?_, ?_⟩
  · intro hret hid
    have h1 : ¬ (fr.ReadLine.1).length ≤ 0 := by rw [hid]; decide
    unfold Deserialize at hret ⊢
    simp only [if_neg h1, if_pos hid] at hret ⊢
    split_ifs at hret ⊢ with h2
    exact ⟨(DeserializeIcons_keeps_header _ _ _).2, (DeserializeIcons_keeps_header _ _ _).1⟩
  · intro hret hid
    unfold Deserialize at hret ⊢
    simp only [if_neg hid] at hret ⊢
    split_ifs at hret ⊢ with h1
    exact ⟨(DeserializeIcons_keeps_header _ _ _).2, (DeserializeIcons_keeps_header _ _ _).1⟩
  · intro h
    unfold Deserialize
    simp [h]

/-- Witness of C10: a record of a named profile, read into an arrangement that
was not one. -/
theorem Deserialize_header_witness :
    (Deserialize (IconHistory.new false) (FileReader.ofText duplicateRecord)).ret = true ∧
    (FileReader.ofText duplicateRecord).ReadLine.1 = named_identifier ∧
    (Deserialize (IconHistory.new false) (FileReader.ofText duplicateRecord)).self.m_named_profile
      = true ∧
    (Deserialize (IconHistory.new false) (FileReader.ofText duplicateRecord)).self.m_name =
      L "home" :=
  ⟨by decide, by decide,
    (Deserialize_header (IconHistory.new false) (FileReader.ofText duplicateRecord)).1
      (by decide) (by decide)⟩

/-! ## The label does not depend on the iteration order -/

theorem specLabel_congr_names (a d m : Nat) (an dn mn an2 dn2 mn2 : wstring)
    (ha : a = 1 → an = an2) (hd : d = 1 → dn = dn2) (hm : m = 1 → mn = mn2) :
    specLabel a d m an dn mn = specLabel a d m an2 dn2 mn2 := by
  unfold specLabel
  by_cases h1 : m > 1
  · rw [if_pos h1, if_pos h1]
  · rw [if_neg h1, if_neg h1]
    by_cases h2 : m = 1
    · rw [if_pos h2, if_pos h2, hm h2]
    · rw [if_neg h2, if_neg h2]
      by_cases h3 : a = 1 ∧ d = 0
      · rw [if_pos h3, if_pos h3, ha h3.1]
      · rw [if_neg h3, if_neg h3]
        by_cases h4 : a = 0 ∧ d = 1
        · rw [if_pos h4, if_pos h4, hd h4.2]
        · rw [if_neg h4, if_neg h4]

theorem any_perm {l l2 : List Icon} (h : l.Perm l2) (p : Icon → Bool) : l.any p = l2.any p := by
  cases h1 : l.any p
  · symm
    rw [List.any_eq_false] at h1 ⊢
    intro x hx
    exact h1 x (h.mem_iff.mpr hx)
  · symm
    rw [List.any_eq_true] at h1 ⊢
    obtain ⟨x, hx, hp⟩ := h1
    exact ⟨x, h.mem_iff.mp hx, hp⟩

theorem addedIcons_perm {C C2 P P2 : List Icon} (hC : C.Perm C2) (hP : P.Perm P2) :
    (addedIcons C P).Perm (addedIcons C2 P2) := by
  unfold addedIcons
  have e : (fun i : Icon => !P.any (fun j => decide (j.name = i.name))) =
      (fun i : Icon => !P2.any (fun j => decide (j.name = i.name))) := by
    funext i; rw [any_perm hP]
  rw [e]
  exact hC.filter _

theorem movedIcons_perm {C C2 P P2 : List Icon} (hC : C.Perm C2) (hP : P.Perm P2) :
    (movedIcons C P).Perm (movedIcons C2 P2) := by
  unfold movedIcons
  have e : (fun i : Icon =>
        P.any (fun j => decide (j.name = i.name ∧ (j.x ≠ i.x ∨ j.y ≠ i.y)))) =
      (fun i : Icon =>
        P2.any (fun j => decide (j.name = i.name ∧ (j.x ≠ i.x ∨ j.y ≠ i.y)))) := by
    funext i; rw [any_perm hP]
  rw [e]
  exact hC.filter _

theorem deletedIcons_perm {C C2 P P2 : List Icon} (hC : C.Perm C2) (hP : P.Perm P2) :
    (deletedIcons C P).Perm (deletedIcons C2 P2) := by
  unfold deletedIcons
  have e : (fun i : Icon => !C.any (fun j => decide (j.name = i.name))) =
      (fun i : Icon => !C2.any (fun j => decide (j.name = i.name))) := by
    funext i; rw [any_perm hC]
  rw [e]
  exact hP.filter _

theorem lastName_perm_of_length_one {l l2 : List Icon} (h : l.Perm l2) (h1 : l.length = 1) :
    lastName l = lastName l2 := by
  obtain ⟨x, rfl⟩ := List.length_eq_one.mp h1
  rw [List.singleton_perm.mp h]

theorem uniqueNames_perm {l l2 : List Icon} (h : l.Perm l2) (hu : UniqueNames l) :
    UniqueNames l2 := by
  unfold UniqueNames at hu ⊢
  exact (h.map Icon.name).nodup_iff.mp hu

theorem label_perm (A A2 B B2 : IconHistory) (hA : A.m_icons.Perm A2.m_icons)
    (hB : B.m_icons.Perm B2.m_icons) (hu : UniqueNames B.m_icons) :
    (A.CalculateName B).m_name = (A2.CalculateName B2).m_name := by
  have ha := addedIcons_perm hA hB
  have hd := deletedIcons_perm hA hB
  have hm := movedIcons_perm hA hB
  rw [label_eq_specLabel A B hu, label_eq_specLabel A2 B2 (uniqueNames_perm hB hu),
    ← ha.length_eq, ← hd.length_eq, ← hm.length_eq]
  apply specLabel_congr_names
  · intro h; rw [lastName_perm_of_length_one ha h]
  · intro h; rw [lastName_perm_of_length_one hd h]
  · intro h; rw [lastName_perm_of_length_one hm h]

/-- C13: for arrangements with unique icon names (only the uniqueness in the
previous one is needed), the label `CalculateName` produces is the same for
any two iteration orders of the current icons and any two iteration orders of
the previous icons: it depends on the two icon sets only, not on which added,
deleted or moved icon is seen last. -/
theorem CalculateName_order_independent (A A2 B B2 : IconHistory)
    (hA : A.m_icons.Perm A2.m_icons) (hB : B.m_icons.Perm B2.m_icons)
    (hu : UniqueNames B.m_icons) :
    (A.CalculateName B).m_name = (A2.CalculateName B2).m_name :=
  label_perm A A2 B B2 hA hB hu

/-- Witness of C13: `{("a",0,0),("b",1,1)}` in its two orders against the
arrangement without icons; the icon seen last is "b" in one order and "a" in
the other, and neither is named in the label. -/
theorem CalculateName_order_independent_witness :
    (tally iconsAB noIcons).addName = L "b" ∧ (tally iconsBA noIcons).addName = L "a" ∧
    (iconsAB.CalculateName noIcons).m_name = (iconsBA.CalculateName noIcons).m_name :=
  ⟨by decide, by decide,
    CalculateName_order_independent iconsAB iconsBA noIcons noIcons
      (List.Perm.swap (⟨L "b", 1, 1⟩ : Icon) (⟨L "a", 0, 0⟩ : Icon) []) (List.Perm.refl _)
      (by unfold UniqueNames; decide)⟩

/-! ## The tray menu: ids and indices -/

open DesktopSaverGui

theorem toInt32_of_fits (v : Int) (h1 : LONG_MIN ≤ v) (h2 : v ≤ LONG_MAX) : toInt32 v = v := by
  unfold LONG_MIN at h1
  unfold LONG_MAX at h2
  unfold toInt32
  omega

theorem listIndex_eq (size base k : Nat) (hk : (k : Int) ≤ LONG_MAX)
    (hs : (size : Int) ≤ LONG_MAX) :
    listIndex size (base + k) base = (size : Int) - k - 1 := by
  unfold listIndex
  have e : ((base + k : Nat) : Int) - (base : Int) = k := by omega
  simp only [e]
  unfold LONG_MAX at hk hs
  rw [toInt32_of_fits k (by unfold LONG_MIN; omega) (by unfold LONG_MAX; omega),
    toInt32_of_fits _ (by unfold LONG_MIN; omega) (by unfold LONG_MAX; omega)]

theorem appendEntries_getElem? (base : Nat) (check : wstring → Bool) (l : List IconHistory) :
    ∀ (start k : Nat) (h : IconHistory), l[k]? = some h →
      (appendEntries base check start l)[k]? =
        some (MenuEntry.item (base + (start + k)) h.GetName (check h.GetName) false) := by
  induction l with
  | nil => intro start k h hk; simp at hk
  | cons i rest ih =>
    intro start k h hk
    cases k with
    | zero =>
      simp only [List.getElem?_cons_zero, Option.some.injEq] at hk
      simp [appendEntries, hk]
    | succ k =>
      simp only [List.getElem?_cons_succ] at hk
      simp only [appendEntries, List.getElem?_cons_succ]
      rw [ih (start + 1) k h hk]
      congr 3
      omega

theorem mem_appendEntries (base : Nat) (check : wstring → Bool) (l : List IconHistory)
    (k : Nat) (h : IconHistory) (hk : l[k]? = some h) :
    MenuEntry.item (base + k) h.GetName (check h.GetName) false ∈
      appendEntries base check 0 l := by
  have := appendEntries_getElem? base check l 0 k h hk
  rw [Nat.zero_add] at this
  exact List.getElem?_mem this

theorem entryAt_reverse (l : List IconHistory) (k : Nat) (hk : k < l.length) :
    entryAt l ((l.length : Int) - k - 1) = l.reverse[k]? := by
  have h0 : ¬ ((l.length : Int) - k - 1 < 0) := by omega
  have h1 : ((l.length : Int) - k - 1).toNat = l.length - 1 - k := by omega
  unfold entryAt
  rw [if_neg h0, h1, List.getElem?_reverse hk, List.get?_eq_getElem?]

theorem entryAt_negative (l : List IconHistory) (v : Int) (h : v < 0) : entryAt l v = none := by
  unfold entryAt
  rw [if_pos h]

theorem rangeHandler_in (handler : Handler) (base count size choice : Nat)
    (st : Bool × List MenuEvent) (h1 : base ≤ choice) (h2 : choice < base + count) :
    rangeHandler handler base count size choice st =
      (true, st.2 ++ [MenuEvent.lookup handler (listIndex size choice base)]) := by
  unfold rangeHandler
  rw [if_pos ⟨by omega, h2⟩]

theorem rangeHandler_out (handler : Handler) (base count size choice : Nat)
    (st : Bool × List MenuEvent) (h : choice < base ∨ base + count ≤ choice) :
    rangeHandler handler base count size choice st = st := by
  unfold rangeHandler
  rw [if_neg (by omega)]

theorem lookup_ids (c : Capacities) :
    WM_Tray_History = 1036 ∧
    WM_Tray_Named_Profile c = 1036 + c.MaxIconHistoryCount ∧
    WM_Tray_Profile_Update c = 1036 + c.MaxIconHistoryCount + c.MaxProfileCount ∧
    WM_Tray_Profile_Delete c = 1036 + c.MaxIconHistoryCount + 2 * c.MaxProfileCount ∧
    WM_Tray_Profile_Autostart c = 1036 + c.MaxIconHistoryCount + 3 * c.MaxProfileCount ∧
    WM_Lookup_End c = 1037 + c.MaxIconHistoryCount + 3 * c.MaxProfileCount := by
  refine ⟨rfl, rfl, rfl, ?_, ?_, ?_⟩ <;>
    simp only [WM_Lookup_End, WM_Tray_Profile_Autostart, WM_Tray_Profile_Delete,
      WM_Tray_Profile_Update, WM_Tray_Named_Profile, WM_Tray_History, WM_Lookup_Begin,
      WM_USER] <;>
    omega

theorem not_fixed_choice (choice : Nat) (h : 1036 ≤ choice) :
    ¬ (choice = WM_Tray_History_Clear ∨ choice = WM_Tray_Exit ∨
      choice = WM_Tray_Profile_Create ∨ choice = WM_Tray_On_Startup ∨
      choice = WM_Tray_Disable_History ∨ choice = WM_Tray_Poll_Endpoints ∨
      choice = WM_Tray_Poll_Interval1 ∨ choice = WM_Tray_Poll_Interval2 ∨
      choice = WM_Tray_Poll_Interval3 ∨ choice = WM_Tray_Poll_Interval4) := by
  simp only [WM_Tray_History_Clear, WM_Tray_Exit, WM_Tray_Profile_Create, WM_Tray_On_Startup,
    WM_Tray_Disable_History, WM_Tray_Poll_Endpoints, WM_Tray_Poll_Interval1,
    WM_Tray_Poll_Interval2, WM_Tray_Poll_Interval3, WM_Tray_Poll_Interval4, WM_USER]
  omega

theorem message_menu_beyond_end (c : Capacities) (m_saver : SaverState) (choice : Nat)
    (h : WM_Lookup_End c ≤ choice) : message_menu c m_saver choice = [] := by
  obtain ⟨_, _, _, _, _, h6⟩ := lookup_ids c
  have hb : ¬ choice < WM_Lookup_Begin := by
    simp only [WM_Lookup_Begin, WM_USER]; omega
  unfold message_menu
  rw [if_neg (not_fixed_choice choice (by omega)), if_neg hb, if_pos h]

theorem message_menu_history (c : Capacities) (m_saver : SaverState) (k : Nat)
    (hk : k < c.MaxIconHistoryCount) :
    message_menu c m_saver (WM_Tray_History + k) =
      [MenuEvent.lookup Handler.history
        (listIndex m_saver.History.length (WM_Tray_History + k) WM_Tray_History)] := by
  obtain ⟨h1, h2, h3, h4, h5, h6⟩ := lookup_ids c
  have hb : ¬ WM_Tray_History + k < WM_Lookup_Begin := by
    simp only [WM_Tray_History, WM_Lookup_Begin, WM_USER]; omega
  have he : ¬ WM_Tray_History + k ≥ WM_Lookup_End c := by omega
  unfold message_menu
  rw [if_neg (not_fixed_choice _ (by omega)), if_neg hb, if_neg he]
  simp only []
  rw [rangeHandler_in Handler.history _ _ _ _ _ (by omega) (by omega),
    rangeHandler_out Handler.named_profile _ _ _ _ _ (by omega),
    rangeHandler_out Handler.profile_update _ _ _ _ _ (by omega),
    rangeHandler_out Handler.profile_delete _ _ _ _ _ (by omega),
    rangeHandler_out Handler.profile_autostart _ _ _ _ _ (by omega)]
  rfl

theorem message_menu_named (c : Capacities) (m_saver : SaverState) (k : Nat)
    (hk : k < c.MaxProfileCount) :
    message_menu c m_saver (WM_Tray_Named_Profile c + k) =
      [MenuEvent.lookup Handler.named_profile
        (listIndex m_saver.NamedProfiles.length (WM_Tray_Named_Profile c + k)
          (WM_Tray_Named_Profile c))] := by
  obtain ⟨h1, h2, h3, h4, h5, h6⟩ := lookup_ids c
  have hb : ¬ WM_Tray_Named_Profile c + k < WM_Lookup_Begin := by
    simp only [WM_Lookup_Begin, WM_USER]; omega
  have he : ¬ WM_Tray_Named_Profile c + k ≥ WM_Lookup_End c := by omega
  unfold message_menu
  rw [if_neg (not_fixed_choice _ (by omega)), if_neg hb, if_neg he]
  simp only []
  rw [rangeHandler_out Handler.history _ _ _ _ _ (by omega),
    rangeHandler_in Handler.named_profile _ _ _ _ _ (by omega) (by omega),
    rangeHandler_out Handler.profile_update _ _ _ _ _ (by omega),
    rangeHandler_out Handler.profile_delete _ _ _ _ _ (by omega),
    rangeHandler_out Handler.profile_autostart _ _ _ _ _ (by omega)]
  rfl

theorem mem_menu_history (c : Capacities) (m_saver : SaverState) (k : Nat) (h : IconHistory)
    (hp : m_saver.GetPollRate ≠ PollRate.DisableHistory)
    (hk : m_saver.History.reverse[k]? = some h) :
    MenuEntry.item (WM_Tray_History + k) h.GetName false false ∈
      (build_dynamic_menu c m_saver).menu := by
  have hm := mem_appendEntries WM_Tray_History (fun _ => false) _ k h hk
  unfold build_dynamic_menu
  simp only [if_pos hp, List.nil_append, List.mem_append]
  exact Or.inl (Or.inl (Or.inl hm))

theorem mem_menu_named (c : Capacities) (m_saver : SaverState) (k : Nat) (h : IconHistory)
    (hk : m_saver.NamedProfiles.reverse[k]? = some h) :
    MenuEntry.item (WM_Tray_Named_Profile c + k) h.GetName false false ∈
      (build_dynamic_menu c m_saver).menu := by
  have hm := mem_appendEntries (WM_Tray_Named_Profile c) (fun _ => false) _ k h hk
  unfold build_dynamic_menu
  simp only [List.mem_append]
  exact Or.inl (Or.inr hm)

/-- C11 fails on the code: `WM_Lookup_End` is `WM_Tray_Profile_Autostart + 1`,
so of the autostart entries only the first has an id inside the lookups. With
two named profiles `build_dynamic_menu` gives the second autostart entry the
id `WM_Tray_Profile_Autostart + 1`, and `message_menu` leaves the switch on
every id `WM_Tray_Profile_Autostart + (k + 1)` without running a handler. -/
theorem autostart_choice_ignored (c : Capacities) (m_saver : SaverState) (k : Nat)
    (older newer : IconHistory) :
    message_menu c m_saver (WM_Tray_Profile_Autostart c + (k + 1)) = [] ∧
    (build_dynamic_menu c { m_saver with NamedProfiles := [older, newer] }).profile_autostart =
      [MenuEntry.item (WM_Tray_Profile_Autostart c + 0) newer.GetName
          (decide (newer.GetName = m_saver.GetAutostartProfileName)) false,
        MenuEntry.item (WM_Tray_Profile_Autostart c + 1) older.GetName
          (decide (older.GetName = m_saver.GetAutostartProfileName)) false] ∧
    message_menu smallCapacities twoProfiles (WM_Tray_Profile_Autostart smallCapacities + 1) =
      [] ∧
    message_menu smallCapacities twoProfiles (WM_Tray_Profile_Delete smallCapacities + 1) =
      [MenuEvent.lookup Handler.profile_delete 0] := by
  refine ⟨?_, rfl, by decide, by decide⟩
  apply message_menu_beyond_end
  unfold WM_Lookup_End
  omega

/-- C12: for a menu position `k` inside the id range of the history handler
(of the named-profile handler), `message_menu` computes on the id `base + k`
the index `n - k - 1`, `n` being the size of the list. For `k < n` that index
lies in the list and denotes the entry `build_dynamic_menu` has put in the
menu under the id `base + k`, the k-th of the list iterated newest first; for
`k >= n` the index is negative and denotes no entry. The sizes and ids are
taken to fit an `int`. -/
theorem lookup_index_denotes_menu_entry (c : Capacities) (m_saver : SaverState) (k : Nat)
    (hfit : (WM_Lookup_End c : Int) ≤ LONG_MAX)
    (hH : (m_saver.History.length : Int) ≤ LONG_MAX)
    (hP : (m_saver.NamedProfiles.length : Int) ≤ LONG_MAX) :
    (k < c.MaxIconHistoryCount →
      message_menu c m_saver (WM_Tray_History + k) =
        [MenuEvent.lookup Handler.history ((m_saver.History.length : Int) - k - 1)] ∧
      (k < m_saver.History.length →
        0 ≤ (m_saver.History.length : Int) - k - 1 ∧
        (m_saver.History.length : Int) - k - 1 < m_saver.History.length ∧
        entryAt m_saver.History ((m_saver.History.length : Int) - k - 1) =
          m_saver.History.reverse[k]? ∧
        (m_saver.GetPollRate ≠ PollRate.DisableHistory →
          ∀ h, m_saver.History.reverse[k]? = some h →
            MenuEntry.item (WM_Tray_History + k) h.GetName false false ∈
              (build_dynamic_menu c m_saver).menu)) ∧
      (m_saver.History.length ≤ k →
        (m_saver.History.length : Int) - k - 1 < 0 ∧
        entryAt m_saver.History ((m_saver.History.length : Int) - k - 1) = none)) ∧
    (k < c.MaxProfileCount →
      message_menu c m_saver (WM_Tray_Named_Profile c + k) =
        [MenuEvent.lookup Handler.named_profile ((m_saver.NamedProfiles.length : Int) - k - 1)] ∧
      (k < m_saver.NamedProfiles.length →
        0 ≤ (m_saver.NamedProfiles.length : Int) - k - 1 ∧
        (m_saver.NamedProfiles.length : Int) - k - 1 < m_saver.NamedProfiles.length ∧
        entryAt m_saver.NamedProfiles ((m_saver.NamedProfiles.length : Int) - k - 1) =
          m_saver.NamedProfiles.reverse[k]? ∧
        (∀ h, m_saver.NamedProfiles.reverse[k]? = some h →
          MenuEntry.item (WM_Tray_Named_Profile c + k) h.GetName false false ∈
            (build_dynamic_menu c m_saver).menu)) ∧
      (m_saver.NamedProfiles.length ≤ k →
        (m_saver.NamedProfiles.length : Int) - k - 1 < 0 ∧
        entryAt m_saver.NamedProfiles ((m_saver.NamedProfiles.length : Int) - k - 1) = none)) := by
  obtain ⟨h1, h2, h3, h4, h5, h6⟩ := lookup_ids c
  have hfit2 : 1037 + c.MaxIconHistoryCount + 3 * c.MaxProfileCount ≤ 2147483647 := by
    rw [h6] at hfit
    unfold LONG_MAX at hfit
    omega
  constructor
  · intro hk
    have hk2 : (k : Int) ≤ LONG_MAX := by unfold LONG_MAX; omega
    refine ⟨?_, ?_, ?_⟩
    · rw [message_menu_history c m_saver k hk, listIndex_eq _ _ _ hk2 hH]
    · intro hn
      refine ⟨by omega, by omega, entryAt_reverse _ k hn, ?_⟩
      intro hp h hh
      exact mem_menu_history c m_saver k h hp hh
    · intro hn
      exact ⟨by omega, entryAt_negative _ _ (by omega)⟩
  · intro hk
    have hk2 : (k : Int) ≤ LONG_MAX := by unfold LONG_MAX; omega
    refine ⟨?_, ?_, ?_⟩
    · rw [message_menu_named c m_saver k hk, listIndex_eq _ _ _ hk2 hP]
    · intro hn
      refine ⟨by omega, by omega, entryAt_reverse _ k hn, ?_⟩
      intro h hh
      exact mem_menu_named c m_saver k h hh
    · intro hn
      exact ⟨by omega, entryAt_negative _ _ (by omega)⟩

/-- Witness of C12: with two history entries, the second menu position
(k = 1) leads to index 0, the older entry; `iconA` is that entry. -/
theorem lookup_index_denotes_menu_entry_witness :
    message_menu smallCapacities twoProfiles (WM_Tray_History + 1) =
      [MenuEvent.lookup Handler.history 0] ∧
    entryAt twoProfiles.History 0 = some iconA ∧
    MenuEntry.item (WM_Tray_History + 1) iconA.GetName false false ∈
      (build_dynamic_menu smallCapacities twoProfiles).menu :=
  ⟨((lookup_index_denotes_menu_entry smallCapacities twoProfiles 1 (by decide) (by decide)
      (by decide)).1 (by decide)).1,
    by decide,
    (((lookup_index_denotes_menu_entry smallCapacities twoProfiles 1 (by decide) (by decide)
      (by decide)).1 (by decide)).2.1 (by decide)).2.2.2 (by decide) iconA (by decide)⟩

end DesktopSaver
